import Mathlib

/-!
Verification of the custom C++17 formatting engine in `compat_format.hpp`
(namespace `compat`, the `#else` branch that does not delegate to `std::format`).

The data model and every operation below are shallow embeddings of the C++
source: `ParsedFormatSpec`, `parse_placeholder_content`,
`apply_padding_internal`, `format_basic_type`, the per-type formatters, and
the scanning loop of `format_to`.  Strings are modelled as `List Char`,
C++ `std::size_t` / numeric fields as `Nat` / `Int` with the explicit
overflow bounds of `std::stoi` / `std::stoul` where the source can throw,
fallible code as `Except String`.  A `double` is modelled as an exact
rational together with the non-finite cases (`FloatVal`), which is faithful
for every property stated here (finite doubles are rationals, and
`operator<<` prints the correctly rounded decimal expansion).
-/

/-- Mirror of `compat::internal::ParsedFormatSpec` (compat_format.hpp:48-60).
`'\x00'` plays the role of the C++ `'\0'` sentinel for `align` and `type`;
the `-1` sentinels of `width` / `precision` are modelled as `none`. -/
structure ParsedFormatSpec where
  arg_id_str : List Char := []
  fill : Char := ' '
  align : Char := '\x00'
  hash_flag : Bool := false
  width : Option Nat := none
  precision : Option Nat := none
  type : Char := '\x00'
  deriving DecidableEq

/-- The three alignment characters recognised in step 2 of the parser. -/
def isAlignChar (c : Char) : Bool :=
  c = '<' || c = '^' || c = '>'

/-- Value of a run of decimal digit characters, as `std::stoi`/`std::stoul`
compute it (most significant digit first). -/
def digitsVal (l : List Char) : Nat :=
  l.foldl (fun a c => a * 10 + (c.toNat - 48)) 0

/-- Steps 2-6 of `parse_placeholder_content`: fill/align
(compat_format.hpp:91-109). -/
def fillAlignStep (rest : List Char) : Char × Char × List Char :=
  match rest with
  | c0 :: c1 :: rs =>
    if isAlignChar c1 then (c0, c1, rs)
    else if isAlignChar c0 then (' ', c0, c1 :: rs)
    else (' ', '\x00', c0 :: c1 :: rs)
  | [c0] =>
    if isAlignChar c0 then (' ', c0, []) else (' ', '\x00', [c0])
  | [] => (' ', '\x00', [])

/-- Step 6: the single trailing type character, then the
"invalid characters at end" check (compat_format.hpp:174-183). -/
def parseTypeStep (spec : ParsedFormatSpec) (rest : List Char) :
    Except String ParsedFormatSpec :=
  match rest with
  | [] => .ok spec
  | t :: rs =>
    if rs = [] then .ok { spec with type := t }
    else .error ("Invalid characters at end of format specifier: " ++ rs.asString)

/-- Step 5: optional `.` followed by mandatory precision digits
(compat_format.hpp:155-172). -/
def parsePrecisionStep (spec : ParsedFormatSpec) (rest : List Char) :
    Except String ParsedFormatSpec :=
  match rest with
  | c :: rs =>
    if c = '.' then
      let ds := rs.takeWhile Char.isDigit
      let rs2 := rs.dropWhile Char.isDigit
      if ds = [] then
        .error "Format specifier missing precision digits after \x27.\x27"
      else if 2147483647 < digitsVal ds then
        .error "Format specifier precision out of range"
      else parseTypeStep { spec with precision := some (digitsVal ds) } rs2
    else parseTypeStep spec (c :: rs)
  | [] => parseTypeStep spec []

/-- Step 4: the width digit run (compat_format.hpp:141-153). -/
def parseWidthStep (spec : ParsedFormatSpec) (rest : List Char) :
    Except String ParsedFormatSpec :=
  let ds := rest.takeWhile Char.isDigit
  let rs := rest.dropWhile Char.isDigit
  if ds = [] then parsePrecisionStep spec rest
  else if 2147483647 < digitsVal ds then
    .error "Format specifier width out of range"
  else parsePrecisionStep { spec with width := some (digitsVal ds) } rs

/-- The body after the `:`: steps 2 (fill/align), 3 (`#`), 3.5 (zero-fill
shorthand, compat_format.hpp:126-139, which fires whenever the character at
the cursor is `0` and the current fill is the space character), then
width/precision/type. -/
def parseSpecBody (arg_id : List Char) (rest : List Char) :
    Except String ParsedFormatSpec :=
  if rest = [] then .ok { arg_id_str := arg_id }
  else
    let fa := fillAlignStep rest
    let fill0 := fa.1
    let align := fa.2.1
    let r2 := fa.2.2
    let hashAndRest : Bool × List Char :=
      match r2 with
      | c :: rs => if c = '#' then (true, rs) else (false, c :: rs)
      | [] => (false, [])
    let hash := hashAndRest.1
    let r3 := hashAndRest.2
    let fill := if r3.head? = some '0' ∧ fill0 = ' ' then '0' else fill0
    parseWidthStep
      { arg_id_str := arg_id, fill := fill, align := align, hash_flag := hash }
      r3

/-- Mirror of `compat::internal::parse_placeholder_content`
(compat_format.hpp:64-184).  Step 1 splits at the first `:`; with no `:` the
whole content is the argument id and parsing stops. -/
def parse_placeholder_content (content : List Char) :
    Except String ParsedFormatSpec :=
  let pre := content.takeWhile (fun c => c ≠ ':')
  let post := content.dropWhile (fun c => c ≠ ':')
  match post with
  | [] => .ok { arg_id_str := content }
  | _ :: rest => parseSpecBody pre rest

/-- Mirror of the `could_be_numeric` test of `apply_padding_internal`
(compat_format.hpp:192-197): the spec types treated as numeric, including
the absent type `'\x00'`. -/
def could_be_numeric (t : Char) : Bool :=
  t = 'd' || t = 'b' || t = 'B' || t = 'o' || t = 'x' || t = 'X' ||
  t = 'f' || t = 'F' || t = '\x00'

/-- Sign extraction of `apply_padding_internal` (compat_format.hpp:199-220):
for a numeric spec type, a leading `+`/`-` followed by at least one more
character is split off as the sign. -/
def split_sign (value_str : List Char) (numeric : Bool) :
    List Char × List Char :=
  match value_str with
  | [] => ([], [])
  | c :: rest =>
    if numeric ∧ (c = '-' ∨ c = '+') ∧ rest ≠ [] then ([c], rest)
    else ([], c :: rest)

/-- The plain alignment switch of `apply_padding_internal`
(compat_format.hpp:259-275). -/
def standard_alignment (ea : Char) (sign_str core : List Char)
    (pad : Nat) (fill : Char) : List Char :=
  if ea = '<' then sign_str ++ core ++ List.replicate pad fill
  else if ea = '>' then List.replicate pad fill ++ sign_str ++ core
  else if ea = '^' then
    List.replicate (pad / 2) fill ++ sign_str ++ core ++
      List.replicate (pad - pad / 2) fill
  else sign_str ++ core

/-- Mirror of `compat::internal::apply_padding_internal`
(compat_format.hpp:188-278).  `value_str` may carry a sign, `prefix_str` is
the base prefix; zero fill with a numeric type hoists `sign + prefix` in
front of the padding. -/
def apply_padding_internal (value_str prefix_str : List Char)
    (spec : ParsedFormatSpec) : List Char :=
  let numeric := could_be_numeric spec.type
  let sv := split_sign value_str numeric
  let sign_str := sv.1
  let value2 := sv.2
  let core := prefix_str ++ value2
  let total := sign_str.length + core.length
  match spec.width with
  | none => sign_str ++ core
  | some w =>
    if total < w then
      let pad := w - total
      let ea := if spec.align = '\x00' then (if numeric then '>' else '<')
                else spec.align
      if spec.fill = '0' ∧ numeric then
        if ea = '>' then
          sign_str ++ prefix_str ++ List.replicate pad '0' ++ value2
        else if ea = '<' then
          sign_str ++ prefix_str ++ value2 ++ List.replicate pad '0'
        else if ea = '^' then
          List.replicate (pad / 2) spec.fill ++ sign_str ++ prefix_str ++
            value2 ++ List.replicate (pad - pad / 2) spec.fill
        else standard_alignment ea sign_str core pad spec.fill
      else standard_alignment ea sign_str core pad spec.fill
    else sign_str ++ core

/-- Little-endian digit list of `n` in base `b`, with explicit fuel so that
the definition is structural and kernel-reducible; agrees with
`Nat.digits b` for `2 ≤ b` (see `natDigitsRev_eq_digits`). -/
def natDigitsRevAux (b : Nat) : Nat → Nat → List Nat
  | 0, _ => []
  | _ + 1, 0 => []
  | fuel + 1, n + 1 => ((n + 1) % b) :: natDigitsRevAux b fuel ((n + 1) / b)

/-- Little-endian base-`b` digits of `n` (empty for `n = 0`). -/
def natDigitsRev (b n : Nat) : List Nat :=
  natDigitsRevAux b n n

/-- The lowercase digit characters produced by `std::stringstream` in bases
up to 16 (and by the manual binary loop of `format_basic_type`). -/
def digitCharLower (d : Nat) : Char :=
  if d = 0 then '0' else if d = 1 then '1' else if d = 2 then '2'
  else if d = 3 then '3' else if d = 4 then '4' else if d = 5 then '5'
  else if d = 6 then '6' else if d = 7 then '7' else if d = 8 then '8'
  else if d = 9 then '9' else if d = 10 then 'a' else if d = 11 then 'b'
  else if d = 12 then 'c' else if d = 13 then 'd' else if d = 14 then 'e'
  else if d = 15 then 'f' else '*'

/-- Most-significant-first base-`b` numeral of a positive `n`, lowercase
(empty for `n = 0`), as `std::stringstream` prints it. -/
def toBaseChars (b n : Nat) : List Char :=
  ((natDigitsRev b n).map digitCharLower).reverse

/-- Decimal numeral of `n`, with `0` rendered as the single digit `0`. -/
def natDec (n : Nat) : List Char :=
  if n = 0 then ['0'] else toBaseChars 10 n

/-- A C++ `double` for the purposes of this development: an exact rational
`num / den` for the finite values (every finite double is such a rational;
`den` is positive for genuine doubles), plus the signed infinities and NaN.
The pair is kept unnormalised so that all arithmetic below is plain
`Nat`/`Int` arithmetic. -/
inductive FloatVal where
  | finite (num : Int) (den : Nat)
  | inf (neg : Bool)
  | nan
  deriving DecidableEq

/-- Round `nn / den` to the nearest natural number, ties to even — the
rounding glibc applies when printing the exact value of a double to a fixed
number of decimals. -/
def roundHalfEvenND (nn den : Nat) : Nat :=
  let fl := nn / den
  let rem := nn % den
  if 2 * rem < den then fl
  else if den < 2 * rem then fl + 1
  else if fl % 2 = 0 then fl else fl + 1

/-- Zero-padded decimal numeral of `m` with exactly `p` digits (the
fractional block of a fixed-point rendering). -/
def fracBlock (p m : Nat) : List Char :=
  List.replicate (p - (natDec m).length) '0' ++ natDec m

/-- The text `std::stringstream` produces for the finite value `num / den`
under `std::fixed` with precision `p`: sign, integer part, and (for
`p > 0`) a point followed by exactly `p` correctly rounded digits. -/
def fixedRender (num : Int) (den : Nat) (p : Nat) : List Char :=
  let n := roundHalfEvenND (num.natAbs * 10 ^ p) den
  let body :=
    if p = 0 then natDec n
    else natDec (n / 10 ^ p) ++ '.' :: fracBlock p (n % 10 ^ p)
  (if num < 0 then ['-'] else []) ++ body

/-- Number of decimal digits of `n` (0 for `n = 0`). -/
def digitLen (n : Nat) : Nat :=
  (natDigitsRev 10 n).length

/-- Decide `nn / den < 10 ^ k` by cross-multiplying (`k` may be negative). -/
def ltPow10 (nn den : Nat) (k : Int) : Bool :=
  if 0 ≤ k then nn < den * 10 ^ k.toNat else nn * 10 ^ (-k).toNat < den

/-- Floor of the base-10 logarithm of the positive rational `nn / den`. -/
def floorLog10ND (nn den : Nat) : Int :=
  let g : Int := (digitLen nn : Int) - (digitLen den : Int)
  if ltPow10 nn den g then g - 1
  else if ltPow10 nn den (g + 1) then g
  else g + 1

/-- Round `(nn / den) * 10 ^ t` (with `t` a possibly negative exponent) to
the nearest natural number, ties to even. -/
def roundScaled (nn den : Nat) (t : Int) : Nat :=
  if 0 ≤ t then roundHalfEvenND (nn * 10 ^ t.toNat) den
  else roundHalfEvenND nn (den * 10 ^ (-t).toNat)

/-- Drop trailing `0` characters (used when the default float notation
trims a rounded significand). -/
def stripTrailingZeros (l : List Char) : List Char :=
  (l.reverse.dropWhile (fun c => c = '0')).reverse

/-- The text `std::stringstream` produces for the finite value `num / den`
in the default float notation with `p` significant digits (`p = 6` when no
precision is set): fixed form for moderate exponents, scientific form
otherwise, trailing zeros removed.  No claim inspects this text; it is
modelled so the default float path is total and executable. -/
def generalRender (num : Int) (den : Nat) (p0 : Nat) : List Char :=
  if num = 0 then ['0']
  else
    let p := max p0 1
    let nn := num.natAbs
    let e0 := floorLog10ND nn den
    let m0 := roundScaled nn den ((p : Int) - 1 - e0)
    let me : Nat × Int := if 10 ^ p ≤ m0 then (m0 / 10, e0 + 1) else (m0, e0)
    let ds := toBaseChars 10 me.1
    let e := me.2
    let body :=
      if e < -4 ∨ (p : Int) ≤ e then
        let mant :=
          match ds with
          | [] => ['0']
          | d :: tail =>
            let frac := stripTrailingZeros tail
            if frac = [] then [d] else d :: '.' :: frac
        let eabs := e.natAbs
        let edigits := if eabs < 10 then '0' :: natDec eabs else natDec eabs
        mant ++ 'e' :: (if e < 0 then '-' else '+') :: edigits
      else if 0 ≤ e then
        let k := e.toNat + 1
        let fp := stripTrailingZeros (ds.drop k)
        if fp = [] then ds.take k else ds.take k ++ '.' :: fp
      else
        let zeros := List.replicate ((-e).toNat - 1) '0'
        let fp := stripTrailingZeros (zeros ++ ds)
        if fp = [] then ['0'] else '0' :: '.' :: fp
    (if num < 0 then ['-'] else []) ++ body

/-- True when the rendered float text contains none of `.`, `e`, `E` — the
condition guarding both post-processing steps of the float branch of
`format_basic_type` (compat_format.hpp:392-406). -/
def no_dot_exp (l : List Char) : Bool :=
  !(l.contains '.') && !(l.contains 'e') && !(l.contains 'E')

/-- The value categories served by `format_basic_type`: signed integers and
doubles (bools and strings have their own formatter specialisations). -/
inductive BasicVal where
  | intVal (n : Int)
  | floatVal (v : FloatVal)
  deriving DecidableEq

/-- Mirror of `compat::internal::format_basic_type`
(compat_format.hpp:288-423): value zero short-circuits to `"0"` plus hash
prefixes; otherwise the type selector picks the base (invalid selectors are
fatal); floats go through fixed/default rendering plus the two
post-processing steps; the result is handed to `apply_padding_internal`. -/
def format_basic_type (value : BasicVal) (spec : ParsedFormatSpec) :
    Except String (List Char) :=
  match value with
  | .intVal n =>
    let sign_str_explicit : List Char := if n < 0 then ['-'] else []
    let ull : Nat := n.natAbs
    if n = 0 then
      let prefix_str : List Char :=
        if spec.hash_flag then
          if spec.type = 'x' then ['0', 'x']
          else if spec.type = 'X' then ['0', 'X']
          else if spec.type = 'b' ∨ spec.type = 'B' then ['0', 'b']
          else []
        else []
      .ok (apply_padding_internal (sign_str_explicit ++ ['0']) prefix_str spec)
    else if spec.type = 'b' ∨ spec.type = 'B' then
      let main := if ull = 0 then ['0'] else toBaseChars 2 ull
      let prefix_str : List Char :=
        if spec.hash_flag then
          (if spec.type = 'b' then ['0', 'b'] else ['0', 'B'])
        else []
      .ok (apply_padding_internal (sign_str_explicit ++ main) prefix_str spec)
    else if spec.type = 'o' then
      let main := toBaseChars 8 ull
      let prefix_str : List Char :=
        if spec.hash_flag ∧ (main = [] ∨ main.head? ≠ some '0') then ['0']
        else []
      .ok (apply_padding_internal (sign_str_explicit ++ main) prefix_str spec)
    else if spec.type = 'x' then
      let main := toBaseChars 16 ull
      let prefix_str : List Char := if spec.hash_flag then ['0', 'x'] else []
      .ok (apply_padding_internal (sign_str_explicit ++ main) prefix_str spec)
    else if spec.type = 'X' then
      let main := (toBaseChars 16 ull).map Char.toUpper
      let prefix_str : List Char := if spec.hash_flag then ['0', 'X'] else []
      .ok (apply_padding_internal (sign_str_explicit ++ main) prefix_str spec)
    else if spec.type = 'd' ∨ spec.type = '\x00' then
      let main := (if n < 0 then ['-'] else []) ++ toBaseChars 10 ull
      .ok (apply_padding_internal main [] spec)
    else
      .error ("Invalid type specifier \x27" ++ [spec.type].asString ++
        "\x27 for integral argument")
  | .floatVal v =>
    if spec.type = 'f' ∨ spec.type = 'F' ∨ spec.type = '\x00' then
      let main : List Char :=
        match v with
        | .inf b => if b then ['-', 'i', 'n', 'f'] else ['i', 'n', 'f']
        | .nan => ['n', 'a', 'n']
        | .finite nm dn =>
          if spec.type = 'f' ∨ spec.type = 'F' then
            fixedRender nm dn (spec.precision.getD 6)
          else
            match spec.precision with
            | some p => generalRender nm dn (max p 1)
            | none => generalRender nm dn 6
      let infnan : Bool := match v with | .finite _ _ => false | _ => true
      let main2 :=
        if infnan = false ∧ (spec.type = 'f' ∨ spec.type = 'F') ∧
            spec.precision = none ∧ no_dot_exp main then
          main ++ ['.', '0', '0', '0', '0', '0', '0']
        else main
      let main3 :=
        if infnan = false ∧ spec.hash_flag ∧ no_dot_exp main2 then
          main2 ++ ['.']
        else main2
      .ok (apply_padding_internal main3 [] spec)
    else
      .error ("Invalid type specifier \x27" ++ [spec.type].asString ++
        "\x27 for floating-point argument")

/-- An argument of a rendering call: the concrete categories the claims
range over (int, C string / `std::string`, bool, double). -/
inductive Arg where
  | intArg (n : Int)
  | strArg (s : List Char)
  | boolArg (b : Bool)
  | floatArg (v : FloatVal)
  deriving DecidableEq

/-- Dispatch of `compat::internal::formatter<T>::format`
(compat_format.hpp:425-501): strings pad verbatim with an empty prefix,
bools render `true`/`false` after validating the type selector, ints and
floats go through `format_basic_type`. -/
def formatArg (a : Arg) (spec : ParsedFormatSpec) :
    Except String (List Char) :=
  match a with
  | .intArg n => format_basic_type (.intVal n) spec
  | .floatArg v => format_basic_type (.floatVal v) spec
  | .strArg s => .ok (apply_padding_internal s [] spec)
  | .boolArg b =>
    if spec.type ≠ '\x00' ∧ spec.type ≠ 'b' ∧ spec.type ≠ 's' then
      .error "Invalid type specifier for bool argument"
    else
      .ok (apply_padding_internal
        (if b then ['t', 'r', 'u', 'e'] else ['f', 'a', 'l', 's', 'e']) [] spec)

/-- Mirror of `compat::IndexingMode` (compat_format.hpp:535-539). -/
inductive IndexingMode where
  | Unknown
  | Automatic
  | Manual
  deriving DecidableEq

/-- The call-local scanning state of `format_to`: the indexing mode and the
automatic argument counter (compat_format.hpp:544-546). -/
structure ScanState where
  mode : IndexingMode
  autoIdx : Nat
  deriving DecidableEq

/-- The error text of the illegal switch from manual to automatic indexing
(compat_format.hpp:571). -/
def msg_manual_to_auto : String :=
  "Cannot switch from manual (e.g. \x7b0\x7d) to automatic (e.g. \x7b\x7d) argument indexing"

/-- The error text of the illegal switch from automatic to manual indexing
(compat_format.hpp:578). -/
def msg_auto_to_manual : String :=
  "Cannot switch from automatic (e.g. \x7b\x7d) to manual (e.g. \x7b0\x7d) argument indexing"

/-- The out-of-bounds error text of `format_to` (compat_format.hpp:595-600),
with its distinct wording for a zero-argument call. -/
def msg_out_of_bounds (idx num_args : Nat) : String :=
  if num_args = 0 then
    "Argument index " ++ toString idx ++ " out of bounds (no arguments provided)."
  else
    "Argument index " ++ toString idx ++ " out of bounds for " ++
      toString num_args ++ " arguments."

/-- Bounds check and argument dispatch of `format_to`
(compat_format.hpp:595-608): the dispatch-failure branch is kept as the
defensive internal error it is in the source. -/
def dispatch_arg (args : List Arg) (idx : Nat) (spec : ParsedFormatSpec) :
    Except String (List Char) :=
  if args.length ≤ idx then .error (msg_out_of_bounds idx args.length)
  else
    match args[idx]? with
    | some a => formatArg a spec
    | none =>
      .error ("Internal error: argument dispatch failed for index " ++
        toString idx)

/-- Processing of one placeholder interior by `format_to`
(compat_format.hpp:560-608): parse (wrapping parse errors), resolve the
indexing mode (the mode-conflict checks come before the id digits are
validated), run `std::stoul` on a manual id (`> 2^64 - 1` overflows), then
bounds-check and dispatch.  Returns the rendered piece and the new state. -/
def handle_placeholder (args : List Arg) (content : List Char)
    (st : ScanState) : Except String (List Char × ScanState) :=
  match parse_placeholder_content content with
  | .error e =>
    .error ("Error parsing placeholder content \x27" ++ content.asString ++
      "\x27: " ++ e)
  | .ok spec =>
    if spec.arg_id_str = [] then
      if st.mode = IndexingMode.Manual then .error msg_manual_to_auto
      else
        match dispatch_arg args st.autoIdx spec with
        | .error e => .error e
        | .ok piece => .ok (piece, ⟨IndexingMode.Automatic, st.autoIdx + 1⟩)
    else
      if st.mode = IndexingMode.Automatic then .error msg_auto_to_manual
      else if ¬ spec.arg_id_str.all Char.isDigit then
        .error ("Invalid format placeholder: non-numeric argument index \x27" ++
          spec.arg_id_str.asString ++ "\x27")
      else if 18446744073709551615 < digitsVal spec.arg_id_str then
        .error ("Invalid format placeholder: argument index \x27" ++
          spec.arg_id_str.asString ++ "\x27 out of range for stoul")
      else
        match dispatch_arg args (digitsVal spec.arg_id_str) spec with
        | .error e => .error e
        | .ok piece => .ok (piece, ⟨IndexingMode.Manual, st.autoIdx⟩)

/-- The lookahead state of the scanning loop: plain literal text, just past
an opening `\x7b`, inside a placeholder interior (with the characters
collected so far), or just past a closing `\x7d`. -/
inductive ScanMode where
  | litMode
  | openMode
  | collMode (acc : List Char)
  | closeMode
  deriving DecidableEq

/-- The scanning loop of `compat::format_to` (compat_format.hpp:548-621) as
a character-at-a-time machine.  The source finds the next `\x7d` and takes
the substring as the placeholder interior; collecting characters up to the
first `\x7d` in `collMode` is the same thing.  `\x7b\x7b` / `\x7d\x7d` emit
one literal brace; a lone `\x7d` and an unterminated `\x7b` are fatal. -/
def scanAux (args : List Arg) :
    List Char → ScanState → ScanMode → Except String (List Char)
  | [], _, .litMode => .ok []
  | [], _, .openMode => .error "Unmatched \x27\x7b\x27 in format string"
  | [], _, .collMode _ => .error "Unmatched \x27\x7b\x27 in format string"
  | [], _, .closeMode => .error "Unmatched \x27\x7d\x27 in format string"
  | c :: rest, st, .litMode =>
    if c = '\x7b' then scanAux args rest st .openMode
    else if c = '\x7d' then scanAux args rest st .closeMode
    else
      match scanAux args rest st .litMode with
      | .error e => .error e
      | .ok tail => .ok (c :: tail)
  | c :: rest, st, .openMode =>
    if c = '\x7b' then
      match scanAux args rest st .litMode with
      | .error e => .error e
      | .ok tail => .ok ('\x7b' :: tail)
    else if c = '\x7d' then
      match handle_placeholder args [] st with
      | .error e => .error e
      | .ok ps =>
        match scanAux args rest ps.2 .litMode with
        | .error e => .error e
        | .ok tail => .ok (ps.1 ++ tail)
    else scanAux args rest st (.collMode [c])
  | c :: rest, st, .collMode acc =>
    if c = '\x7d' then
      match handle_placeholder args acc st with
      | .error e => .error e
      | .ok ps =>
        match scanAux args rest ps.2 .litMode with
        | .error e => .error e
        | .ok tail => .ok (ps.1 ++ tail)
    else scanAux args rest st (.collMode (acc ++ [c]))
  | c :: rest, st, .closeMode =>
    if c = '\x7d' then
      match scanAux args rest st .litMode with
      | .error e => .error e
      | .ok tail => .ok ('\x7d' :: tail)
    else .error "Unmatched \x27\x7d\x27 in format string"

/-- Mirror of `compat::format_to` / `compat::format`
(compat_format.hpp:541-630): scan the whole template from the initial state
(`Unknown` mode, automatic counter 0) and return the rendered string, or
the first error. -/
def format_to (fmt : List Char) (args : List Arg) :
    Except String (List Char) :=
  scanAux args fmt ⟨IndexingMode.Unknown, 0⟩ ScanMode.litMode

/-! ### Abstract templates built from literal runs and plain placeholders -/

/-- A template item: a brace-free literal run, an automatic placeholder
`\x7b\x7d`, or a manual placeholder `\x7bN\x7d`. -/
inductive TemplateItem where
  | lit (s : List Char)
  | auto
  | manual (n : Nat)
  deriving DecidableEq

/-- Concrete text of one template item. -/
def TemplateItem.render : TemplateItem → List Char
  | .lit s => s
  | .auto => ['\x7b', '\x7d']
  | .manual n => '\x7b' :: (natDec n ++ ['\x7d'])

/-- Concrete text of a whole template. -/
def renderTemplate (items : List TemplateItem) : List Char :=
  (items.map TemplateItem.render).flatten

/-- Well-formedness of an item: a literal run contains no brace. -/
def TemplateItem.noBrace : TemplateItem → Prop
  | .lit s => ∀ c ∈ s, c ≠ '\x7b' ∧ c ≠ '\x7d'
  | _ => True

/-- Number of automatic placeholders in a template. -/
def autoCount : List TemplateItem → Nat
  | [] => 0
  | .auto :: rest => autoCount rest + 1
  | _ :: rest => autoCount rest

/-- Every manual id is in bounds for `bound` arguments and within the
`std::stoul` range. -/
def manualIdsOk (items : List TemplateItem) (bound : Nat) : Prop :=
  ∀ n, TemplateItem.manual n ∈ items → n < bound ∧ n ≤ 18446744073709551615

/-- Kind of the first placeholder of the template (`true` = manual);
`false` for a template with no placeholder. -/
def firstIsManual : List TemplateItem → Bool
  | [] => false
  | .lit _ :: rest => firstIsManual rest
  | .auto :: _ => false
  | .manual _ :: _ => true

/-! ### Basic facts about the digit machinery -/

theorem natDigitsRevAux_eq_digits (b : Nat) (hb : 2 ≤ b) :
    ∀ fuel n, n ≤ fuel → natDigitsRevAux b fuel n = Nat.digits b n := by
  intro fuel
  induction fuel with
  | zero =>
    intro n hn
    have hn0 : n = 0 := Nat.le_zero.mp hn
    subst hn0
    simp [natDigitsRevAux]
  | succ f ih =>
    intro n hn
    match n with
    | 0 => simp [natDigitsRevAux]
    | m + 1 =>
      have hdiv : (m + 1) / b ≤ f := by
        have h1 : (m + 1) / b < m + 1 :=
          Nat.div_lt_self (Nat.succ_pos m) (Nat.lt_of_lt_of_le Nat.one_lt_two hb)
        omega
      have : natDigitsRevAux b (f + 1) (m + 1)
          = ((m + 1) % b) :: natDigitsRevAux b f ((m + 1) / b) := rfl
      rw [this, ih _ hdiv,
        (Nat.digits_def' (Nat.lt_of_lt_of_le Nat.one_lt_two hb) (Nat.succ_pos m)).symm]

theorem natDigitsRev_eq_digits (b n : Nat) (hb : 2 ≤ b) :
    natDigitsRev b n = Nat.digits b n :=
  natDigitsRevAux_eq_digits b hb n n le_rfl

theorem digitCharLower_isDigit : ∀ d, d < 10 → (digitCharLower d).isDigit = true := by
  decide

theorem digitCharLower_toNat : ∀ d, d < 10 → (digitCharLower d).toNat - 48 = d := by
  decide

theorem digitCharLower_not_special :
    ∀ d, d < 10 → digitCharLower d ≠ 'e' ∧ digitCharLower d ≠ 'E' ∧
      digitCharLower d ≠ '.' := by
  decide

theorem isDigit_ne {c : Char} (h : c.isDigit = true) :
    c ≠ ':' ∧ c ≠ '\x7b' ∧ c ≠ '\x7d' := by
  refine ⟨fun he => ?_, fun he => ?_, fun he => ?_⟩ <;>
    (subst he; exact absurd h (by decide))

theorem natDec_ne_nil (n : Nat) : natDec n ≠ [] := by
  unfold natDec
  split
  · simp
  · rename_i hn
    unfold toBaseChars
    rw [natDigitsRev_eq_digits 10 n (by omega)]
    simp [Nat.digits_ne_nil_iff_ne_zero.mpr hn]

theorem mem_natDec_isDigit (n : Nat) : ∀ c ∈ natDec n, c.isDigit = true := by
  intro c hc
  unfold natDec at hc
  split at hc
  · rcases List.mem_singleton.mp hc with rfl
    decide
  · unfold toBaseChars at hc
    rw [List.mem_reverse] at hc
    rcases List.mem_map.mp hc with ⟨d, hd, rfl⟩
    rw [natDigitsRev_eq_digits 10 n (by omega)] at hd
    exact digitCharLower_isDigit d (Nat.digits_lt_base (by omega) hd)

theorem foldl_digitsVal (L : List Nat) (h : ∀ d ∈ L, d < 10) (a : Nat) :
    ((L.map digitCharLower).reverse).foldl (fun x c => x * 10 + (c.toNat - 48)) a
      = a * 10 ^ L.length + Nat.ofDigits 10 L := by
  induction L generalizing a with
  | nil => simp [Nat.ofDigits]
  | cons d T ih =>
    have hd : d < 10 := h d (List.mem_cons_self d T)
    have hT : ∀ x ∈ T, x < 10 := fun x hx => h x (List.mem_cons_of_mem d hx)
    simp only [List.map_cons, List.reverse_cons, List.foldl_append, List.foldl_cons,
      List.foldl_nil]
    rw [ih hT a, digitCharLower_toNat d hd, Nat.ofDigits_cons, List.length_cons]
    push_cast [pow_succ]
    ring

theorem digitsVal_natDec (n : Nat) : digitsVal (natDec n) = n := by
  unfold natDec digitsVal
  split
  · rename_i hn
    subst hn
    decide
  · unfold toBaseChars
    rw [natDigitsRev_eq_digits 10 n (by omega)]
    rw [foldl_digitsVal _ (fun d hd => Nat.digits_lt_base (by omega) hd) 0]
    simp [Nat.ofDigits_digits]

/-! ### Symbolic execution lemmas for the scanner -/

theorem scan_lit_char (args : List Arg) (c : Char) (rest : List Char)
    (st : ScanState) (h1 : c ≠ '\x7b') (h2 : c ≠ '\x7d') :
    scanAux args (c :: rest) st ScanMode.litMode =
      match scanAux args rest st ScanMode.litMode with
      | .error e => .error e
      | .ok tail => .ok (c :: tail) := by
  simp [scanAux, h1, h2]

theorem scan_lit_append (args : List Arg) (s : List Char)
    (h : ∀ c ∈ s, c ≠ '\x7b' ∧ c ≠ '\x7d') (rest : List Char) (st : ScanState) :
    scanAux args (s ++ rest) st ScanMode.litMode =
      match scanAux args rest st ScanMode.litMode with
      | .error e => .error e
      | .ok tail => .ok (s ++ tail) := by
  induction s with
  | nil =>
    simp only [List.nil_append]
    cases scanAux args rest st ScanMode.litMode <;> rfl
  | cons c tl ih =>
    have hc := h c (List.mem_cons_self c tl)
    have htl : ∀ x ∈ tl, x ≠ '\x7b' ∧ x ≠ '\x7d' :=
      fun x hx => h x (List.mem_cons_of_mem c hx)
    rw [List.cons_append, scan_lit_char args c (tl ++ rest) st hc.1 hc.2, ih htl]
    cases scanAux args rest st ScanMode.litMode <;> rfl

theorem scan_collect (args : List Arg) (interior : List Char)
    (h : ∀ c ∈ interior, c ≠ '\x7d') (rest : List Char) (st : ScanState)
    (acc : List Char) :
    scanAux args (interior ++ '\x7d' :: rest) st (ScanMode.collMode acc) =
      match handle_placeholder args (acc ++ interior) st with
      | .error e => .error e
      | .ok ps =>
        match scanAux args rest ps.2 ScanMode.litMode with
        | .error e => .error e
        | .ok tail => .ok (ps.1 ++ tail) := by
  induction interior generalizing acc with
  | nil => simp [scanAux]
  | cons c tl ih =>
    have hc := h c (List.mem_cons_self c tl)
    have htl : ∀ x ∈ tl, x ≠ '\x7d' := fun x hx => h x (List.mem_cons_of_mem c hx)
    have step : scanAux args ((c :: tl) ++ '\x7d' :: rest) st (ScanMode.collMode acc)
        = scanAux args (tl ++ '\x7d' :: rest) st (ScanMode.collMode (acc ++ [c])) := by
      simp [scanAux, hc]
    rw [step, ih htl]
    simp

theorem scan_placeholder (args : List Arg) (interior : List Char)
    (h : ∀ c ∈ interior, c ≠ '\x7b' ∧ c ≠ '\x7d') (rest : List Char)
    (st : ScanState) :
    scanAux args ('\x7b' :: (interior ++ '\x7d' :: rest)) st ScanMode.litMode =
      match handle_placeholder args interior st with
      | .error e => .error e
      | .ok ps =>
        match scanAux args rest ps.2 ScanMode.litMode with
        | .error e => .error e
        | .ok tail => .ok (ps.1 ++ tail) := by
  have step : scanAux args ('\x7b' :: (interior ++ '\x7d' :: rest)) st ScanMode.litMode
      = scanAux args (interior ++ '\x7d' :: rest) st ScanMode.openMode := by
    simp [scanAux]
  rw [step]
  cases interior with
  | nil => simp [scanAux]
  | cons c tl =>
    have hc := h c (List.mem_cons_self c tl)
    have htl : ∀ x ∈ tl, x ≠ '\x7d' := fun x hx => (h x (List.mem_cons_of_mem c hx)).2
    have step2 : scanAux args ((c :: tl) ++ '\x7d' :: rest) st ScanMode.openMode
        = scanAux args (tl ++ '\x7d' :: rest) st (ScanMode.collMode [c]) := by
      simp [scanAux, hc.1, hc.2]
    rw [step2, scan_collect args tl htl rest st [c]]
    simp

/-! ### Evaluation lemmas for placeholder handling -/

theorem parse_digits_id (ds : List Char) (hdig : ∀ c ∈ ds, c.isDigit = true) :
    parse_placeholder_content ds = .ok { arg_id_str := ds } := by
  have hdrop : ds.dropWhile (fun c => !decide (c = ':')) = [] :=
    List.dropWhile_eq_nil_iff.mpr fun c hc => by
      simp [(isDigit_ne (hdig c hc)).1]
  simp [parse_placeholder_content, hdrop]

theorem handle_auto_conflict (args : List Arg) (k : Nat) :
    handle_placeholder args [] ⟨IndexingMode.Manual, k⟩ =
      .error msg_manual_to_auto := by
  simp [handle_placeholder, parse_placeholder_content]

theorem handle_auto_eval (args : List Arg) (m : IndexingMode) (k : Nat)
    (hm : m ≠ IndexingMode.Manual) :
    handle_placeholder args [] ⟨m, k⟩ =
      match dispatch_arg args k {} with
      | .error e => .error e
      | .ok piece => .ok (piece, ⟨IndexingMode.Automatic, k + 1⟩) := by
  simp [handle_placeholder, parse_placeholder_content, hm]

theorem handle_manual_conflict (args : List Arg) (k : Nat)
    (ds : List Char) (hne : ds ≠ []) (hdig : ∀ c ∈ ds, c.isDigit = true) :
    handle_placeholder args ds ⟨IndexingMode.Automatic, k⟩ =
      .error msg_auto_to_manual := by
  simp [handle_placeholder, parse_digits_id ds hdig, hne]

theorem handle_manual_eval (args : List Arg) (m : IndexingMode) (k : Nat)
    (ds : List Char) (hne : ds ≠ []) (hdig : ∀ c ∈ ds, c.isDigit = true)
    (hm : m ≠ IndexingMode.Automatic)
    (hrange : digitsVal ds ≤ 18446744073709551615) :
    handle_placeholder args ds ⟨m, k⟩ =
      match dispatch_arg args (digitsVal ds) { arg_id_str := ds } with
      | .error e => .error e
      | .ok piece => .ok (piece, ⟨IndexingMode.Manual, k⟩) := by
  have hall : ds.all Char.isDigit = true := List.all_eq_true.mpr hdig
  simp [handle_placeholder, parse_digits_id ds hdig, hne, hm, hall,
    Nat.not_lt.mpr hrange]

theorem dispatch_arg_oob (args : List Arg) (idx : Nat) (spec : ParsedFormatSpec)
    (h : args.length ≤ idx) :
    dispatch_arg args idx spec = .error (msg_out_of_bounds idx args.length) := by
  simp [dispatch_arg, h]

theorem dispatch_arg_ok (args : List Arg) (idx : Nat) (spec : ParsedFormatSpec)
    (h : idx < args.length) :
    dispatch_arg args idx spec = formatArg (args.get ⟨idx, h⟩) spec := by
  simp [dispatch_arg, Nat.not_le.mpr h, List.getElem?_eq_getElem h,
    List.get_eq_getElem]

theorem formatArg_plain_ok (a : Arg) (id : List Char) :
    ∃ s, formatArg a { arg_id_str := id } = .ok s := by
  cases a with
  | intArg n =>
    by_cases hn : n = 0
    · subst hn
      simp +decide [formatArg, format_basic_type]
    · simp +decide [formatArg, format_basic_type, hn]
  | strArg s => exact ⟨_, rfl⟩
  | boolArg b => simp +decide [formatArg]
  | floatArg v => simp +decide [formatArg, format_basic_type]

theorem renderTemplate_cons (it : TemplateItem) (rest : List TemplateItem) :
    renderTemplate (it :: rest) = it.render ++ renderTemplate rest := by
  simp [renderTemplate]

theorem natDec_noBrace (n : Nat) :
    ∀ c ∈ natDec n, c ≠ '\x7b' ∧ c ≠ '\x7d' := fun c hc =>
  ⟨(isDigit_ne (mem_natDec_isDigit n c hc)).2.1,
   (isDigit_ne (mem_natDec_isDigit n c hc)).2.2⟩

theorem scan_auto_item (args : List Arg) (rest : List Char) (st : ScanState) :
    scanAux args ('\x7b' :: '\x7d' :: rest) st ScanMode.litMode =
      match handle_placeholder args [] st with
      | .error e => .error e
      | .ok ps =>
        match scanAux args rest ps.2 ScanMode.litMode with
        | .error e => .error e
        | .ok tail => .ok (ps.1 ++ tail) := by
  have h := scan_placeholder args [] (by simp) rest st
  simpa using h

theorem scan_manual_item (args : List Arg) (n : Nat) (rest : List Char)
    (st : ScanState) :
    scanAux args ('\x7b' :: (natDec n ++ '\x7d' :: rest)) st ScanMode.litMode =
      match handle_placeholder args (natDec n) st with
      | .error e => .error e
      | .ok ps =>
        match scanAux args rest ps.2 ScanMode.litMode with
        | .error e => .error e
        | .ok tail => .ok (ps.1 ++ tail) :=
  scan_placeholder args (natDec n) (natDec_noBrace n) rest st

/-- Scanning a template made of brace-free literals and automatic
placeholders only: starting from a non-manual mode with `k` arguments
already consumed, rendering succeeds exactly when the remaining automatic
placeholders fit into the remaining arguments, and otherwise fails with the
out-of-bounds error for index `args.length`. -/
theorem scan_auto_only (args : List Arg) (items : List TemplateItem)
    (hwf : ∀ it ∈ items, it.noBrace)
    (hnoman : ∀ n, TemplateItem.manual n ∉ items) :
    ∀ (k : Nat) (m : IndexingMode), m ≠ IndexingMode.Manual → k ≤ args.length →
    (k + autoCount items ≤ args.length →
      ∃ s, scanAux args (renderTemplate items) ⟨m, k⟩ ScanMode.litMode = .ok s) ∧
    (args.length < k + autoCount items →
      scanAux args (renderTemplate items) ⟨m, k⟩ ScanMode.litMode =
        .error (msg_out_of_bounds args.length args.length)) := by
  induction items with
  | nil =>
    intro k m hm hk
    constructor
    · intro _
      exact ⟨[], rfl⟩
    · intro hlt
      simp [autoCount] at hlt
      omega
  | cons it rest ih =>
    intro k m hm hk
    have hwfr : ∀ x ∈ rest, x.noBrace := fun x hx => hwf x (List.mem_cons_of_mem it hx)
    have hnomanr : ∀ n, TemplateItem.manual n ∉ rest :=
      fun n hn => hnoman n (List.mem_cons_of_mem it hn)
    cases it with
    | lit s =>
      have hs : ∀ c ∈ s, c ≠ '\x7b' ∧ c ≠ '\x7d' := hwf (.lit s) (List.mem_cons_self _ _)
      rw [renderTemplate_cons]
      have hcnt : autoCount (TemplateItem.lit s :: rest) = autoCount rest := rfl
      rw [TemplateItem.render, scan_lit_append args s hs _ _, hcnt]
      constructor
      · intro hle
        obtain ⟨t, ht⟩ := (ih hwfr hnomanr k m hm hk).1 hle
        rw [ht]
        exact ⟨s ++ t, rfl⟩
      · intro hlt
        rw [(ih hwfr hnomanr k m hm hk).2 hlt]
    | auto =>
      rw [renderTemplate_cons]
      have hcnt : autoCount (TemplateItem.auto :: rest) = autoCount rest + 1 := rfl
      rw [TemplateItem.render, hcnt]
      have hstep : ('\x7b' :: '\x7d' :: ([] : List Char)) ++ renderTemplate rest
          = '\x7b' :: '\x7d' :: renderTemplate rest := by simp
      rw [hstep, scan_auto_item args _ ⟨m, k⟩, handle_auto_eval args m k hm]
      by_cases hkl : k < args.length
      · obtain ⟨piece, hpiece⟩ := formatArg_plain_ok (args.get ⟨k, hkl⟩) []
        simp only [dispatch_arg_ok args k _ hkl, hpiece]
        have ihr := ih hwfr hnomanr (k + 1) IndexingMode.Automatic (by simp) hkl
        constructor
        · intro hle
          obtain ⟨t, ht⟩ := ihr.1 (by omega)
          rw [ht]
          exact ⟨piece ++ t, rfl⟩
        · intro hlt
          rw [ihr.2 (by omega)]
      · have hke : k = args.length := by omega
        subst hke
        rw [dispatch_arg_oob args _ _ (by omega)]
        constructor
        · intro hle
          exact absurd hle (by omega)
        · intro _
          rfl
    | manual n =>
      exact absurd (List.mem_cons_self _ _) (hnoman n)

/-- In `Manual` mode, a template containing an automatic placeholder always
dies with the manual-to-automatic conflict, provided its literals are
brace-free and the manual ids before the conflict stay in bounds. -/
theorem scan_manual_mode (args : List Arg) (items : List TemplateItem)
    (hwf : ∀ it ∈ items, it.noBrace)
    (hids : manualIdsOk items args.length)
    (hauto : TemplateItem.auto ∈ items) :
    ∀ k, scanAux args (renderTemplate items) ⟨IndexingMode.Manual, k⟩
        ScanMode.litMode = .error msg_manual_to_auto := by
  induction items with
  | nil => exact absurd hauto (List.not_mem_nil _)
  | cons it rest ih =>
    intro k
    have hwfr : ∀ x ∈ rest, x.noBrace := fun x hx => hwf x (List.mem_cons_of_mem it hx)
    have hidsr : manualIdsOk rest args.length :=
      fun n hn => hids n (List.mem_cons_of_mem it hn)
    cases it with
    | lit s =>
      have hs : ∀ c ∈ s, c ≠ '\x7b' ∧ c ≠ '\x7d' := hwf (.lit s) (List.mem_cons_self _ _)
      have hautor : TemplateItem.auto ∈ rest := by
        rcases List.mem_cons.mp hauto with h | h
        · exact absurd h (by simp)
        · exact h
      rw [renderTemplate_cons, TemplateItem.render, scan_lit_append args s hs _ _,
        ih hwfr hidsr hautor k]
    | auto =>
      rw [renderTemplate_cons, TemplateItem.render]
      have hstep : ('\x7b' :: '\x7d' :: ([] : List Char)) ++ renderTemplate rest
          = '\x7b' :: '\x7d' :: renderTemplate rest := by simp
      rw [hstep, scan_auto_item args _ ⟨IndexingMode.Manual, k⟩,
        handle_auto_conflict args k]
    | manual n =>
      have hn := hids n (List.mem_cons_self _ _)
      have hautor : TemplateItem.auto ∈ rest := by
        rcases List.mem_cons.mp hauto with h | h
        · exact absurd h (by simp)
        · exact h
      rw [renderTemplate_cons, TemplateItem.render]
      have hstep : ('\x7b' :: (natDec n ++ ['\x7d'])) ++ renderTemplate rest
          = '\x7b' :: (natDec n ++ '\x7d' :: renderTemplate rest) := by simp
      rw [hstep, scan_manual_item args n _ ⟨IndexingMode.Manual, k⟩,
        handle_manual_eval args IndexingMode.Manual k (natDec n) (natDec_ne_nil n)
          (mem_natDec_isDigit n) (by simp) (by rw [digitsVal_natDec]; exact hn.2)]
      rw [digitsVal_natDec]
      obtain ⟨piece, hpiece⟩ := formatArg_plain_ok (args.get ⟨n, hn.1⟩) (natDec n)
      simp only [dispatch_arg_ok args n _ hn.1, hpiece]
      rw [ih hwfr hidsr hautor k]

/-- In `Automatic` mode with enough arguments for the remaining automatic
placeholders, a template containing a manual placeholder always dies with
the automatic-to-manual conflict. -/
theorem scan_auto_mode (args : List Arg) (items : List TemplateItem)
    (hwf : ∀ it ∈ items, it.noBrace)
    (hman : ∃ n, TemplateItem.manual n ∈ items) :
    ∀ k, k + autoCount items ≤ args.length →
      scanAux args (renderTemplate items) ⟨IndexingMode.Automatic, k⟩
        ScanMode.litMode = .error msg_auto_to_manual := by
  induction items with
  | nil =>
    obtain ⟨n, hn⟩ := hman
    exact absurd hn (List.not_mem_nil _)
  | cons it rest ih =>
    intro k hcnt
    have hwfr : ∀ x ∈ rest, x.noBrace := fun x hx => hwf x (List.mem_cons_of_mem it hx)
    cases it with
    | lit s =>
      have hs : ∀ c ∈ s, c ≠ '\x7b' ∧ c ≠ '\x7d' := hwf (.lit s) (List.mem_cons_self _ _)
      have hmanr : ∃ n, TemplateItem.manual n ∈ rest := by
        obtain ⟨n, hn⟩ := hman
        rcases List.mem_cons.mp hn with h | h
        · exact absurd h (by simp)
        · exact ⟨n, h⟩
      rw [renderTemplate_cons, TemplateItem.render, scan_lit_append args s hs _ _,
        ih hwfr hmanr k hcnt]
    | auto =>
      have hmanr : ∃ n, TemplateItem.manual n ∈ rest := by
        obtain ⟨n, hn⟩ := hman
        rcases List.mem_cons.mp hn with h | h
        · exact absurd h (by simp)
        · exact ⟨n, h⟩
      have hcnt' : autoCount (TemplateItem.auto :: rest) = autoCount rest + 1 := rfl
      rw [hcnt'] at hcnt
      have hkl : k < args.length := by omega
      rw [renderTemplate_cons, TemplateItem.render]
      have hstep : ('\x7b' :: '\x7d' :: ([] : List Char)) ++ renderTemplate rest
          = '\x7b' :: '\x7d' :: renderTemplate rest := by simp
      rw [hstep, scan_auto_item args _ ⟨IndexingMode.Automatic, k⟩,
        handle_auto_eval args IndexingMode.Automatic k (by simp)]
      obtain ⟨piece, hpiece⟩ := formatArg_plain_ok (args.get ⟨k, hkl⟩) []
      simp only [dispatch_arg_ok args k _ hkl, hpiece]
      rw [ih hwfr hmanr (k + 1) (by omega)]
    | manual n =>
      rw [renderTemplate_cons, TemplateItem.render]
      have hstep : ('\x7b' :: (natDec n ++ ['\x7d'])) ++ renderTemplate rest
          = '\x7b' :: (natDec n ++ '\x7d' :: renderTemplate rest) := by simp
      rw [hstep, scan_manual_item args n _ ⟨IndexingMode.Automatic, k⟩,
        handle_manual_conflict args k (natDec n) (natDec_ne_nil n)
          (mem_natDec_isDigit n)]

/-- From the initial `Unknown` mode, a well-formed template containing both
an automatic and a manual placeholder (manual ids in bounds, enough
arguments for the automatic ones) dies with the conflict whose direction is
given by the kind of the first placeholder. -/
theorem scan_unknown_mixed (args : List Arg) (items : List TemplateItem)
    (hwf : ∀ it ∈ items, it.noBrace)
    (hids : manualIdsOk items args.length)
    (hauto : TemplateItem.auto ∈ items)
    (hman : ∃ n, TemplateItem.manual n ∈ items) :
    ∀ k, k + autoCount items ≤ args.length →
      scanAux args (renderTemplate items) ⟨IndexingMode.Unknown, k⟩
          ScanMode.litMode =
        .error (if firstIsManual items then msg_manual_to_auto
          else msg_auto_to_manual) := by
  induction items with
  | nil => exact absurd hauto (List.not_mem_nil _)
  | cons it rest ih =>
    intro k hcnt
    have hwfr : ∀ x ∈ rest, x.noBrace := fun x hx => hwf x (List.mem_cons_of_mem it hx)
    have hidsr : manualIdsOk rest args.length :=
      fun n hn => hids n (List.mem_cons_of_mem it hn)
    cases it with
    | lit s =>
      have hs : ∀ c ∈ s, c ≠ '\x7b' ∧ c ≠ '\x7d' := hwf (.lit s) (List.mem_cons_self _ _)
      have hautor : TemplateItem.auto ∈ rest := by
        rcases List.mem_cons.mp hauto with h | h
        · exact absurd h (by simp)
        · exact h
      have hmanr : ∃ n, TemplateItem.manual n ∈ rest := by
        obtain ⟨n, hn⟩ := hman
        rcases List.mem_cons.mp hn with h | h
        · exact absurd h (by simp)
        · exact ⟨n, h⟩
      have hfirst : firstIsManual (TemplateItem.lit s :: rest) = firstIsManual rest := rfl
      rw [renderTemplate_cons, TemplateItem.render, scan_lit_append args s hs _ _,
        hfirst, ih hwfr hidsr hautor hmanr k hcnt]
    | auto =>
      have hmanr : ∃ n, TemplateItem.manual n ∈ rest := by
        obtain ⟨n, hn⟩ := hman
        rcases List.mem_cons.mp hn with h | h
        · exact absurd h (by simp)
        · exact ⟨n, h⟩
      have hcnt' : autoCount (TemplateItem.auto :: rest) = autoCount rest + 1 := rfl
      rw [hcnt'] at hcnt
      have hkl : k < args.length := by omega
      have hfirst : firstIsManual (TemplateItem.auto :: rest) = false := rfl
      rw [renderTemplate_cons, TemplateItem.render, hfirst]
      have hstep : ('\x7b' :: '\x7d' :: ([] : List Char)) ++ renderTemplate rest
          = '\x7b' :: '\x7d' :: renderTemplate rest := by simp
      rw [hstep, scan_auto_item args _ ⟨IndexingMode.Unknown, k⟩,
        handle_auto_eval args IndexingMode.Unknown k (by simp)]
      obtain ⟨piece, hpiece⟩ := formatArg_plain_ok (args.get ⟨k, hkl⟩) []
      simp only [dispatch_arg_ok args k _ hkl, hpiece]
      rw [scan_auto_mode args rest hwfr hmanr (k + 1) (by omega)]
      simp
    | manual n =>
      have hn := hids n (List.mem_cons_self _ _)
      have hautor : TemplateItem.auto ∈ rest := by
        rcases List.mem_cons.mp hauto with h | h
        · exact absurd h (by simp)
        · exact h
      have hfirst : firstIsManual (TemplateItem.manual n :: rest) = true := rfl
      rw [renderTemplate_cons, TemplateItem.render, hfirst]
      have hstep : ('\x7b' :: (natDec n ++ ['\x7d'])) ++ renderTemplate rest
          = '\x7b' :: (natDec n ++ '\x7d' :: renderTemplate rest) := by simp
      rw [hstep, scan_manual_item args n _ ⟨IndexingMode.Unknown, k⟩,
        handle_manual_eval args IndexingMode.Unknown k (natDec n) (natDec_ne_nil n)
          (mem_natDec_isDigit n) (by simp) (by rw [digitsVal_natDec]; exact hn.2)]
      rw [digitsVal_natDec]
      obtain ⟨piece, hpiece⟩ := formatArg_plain_ok (args.get ⟨n, hn.1⟩) (natDec n)
      simp only [dispatch_arg_ok args n _ hn.1, hpiece]
      rw [scan_manual_mode args rest hwfr hidsr hautor k]
      simp

/-! ### Claim C1 (indexing-mode conflict) -/

/-- C1 counterexample: the claim promises an indexing-mode-conflict error
for every template mixing the two placeholder kinds, independent of the
manual id value — but `\x7b1\x7d\x7b\x7d` with one argument fails with
the out-of-bounds error instead (the manual placeholder is processed, and
dies on bounds, before the automatic one is ever reached). -/
theorem c1_mixing_counterexample :
    format_to ("\x7b1\x7d\x7b\x7d".toList) [Arg.strArg ['x']] =
      .error "Argument index 1 out of bounds for 1 arguments." ∧
    "Argument index 1 out of bounds for 1 arguments." ≠ msg_manual_to_auto ∧
    "Argument index 1 out of bounds for 1 arguments." ≠ msg_auto_to_manual :=
  ⟨rfl, by decide, by decide⟩

/-- C1 (amended): for every template of brace-free literals, automatic
placeholders and manual placeholders that contains both an automatic and a
manual placeholder, rendering fails with the indexing-mode-conflict error
reporting the direction of the switch (given by the kind of the first
placeholder), provided every placeholder processed before the conflict
succeeds: the manual ids are within the argument count (and the `stoul`
range), and the automatic placeholders fit into the argument count.
Without those provisos the call still fails, but with the error of the
earlier offending placeholder, as the counterexample shows. -/
theorem c1_mixing_amended (items : List TemplateItem) (args : List Arg)
    (hwf : ∀ it ∈ items, it.noBrace)
    (hids : manualIdsOk items args.length)
    (hauto : TemplateItem.auto ∈ items)
    (hman : ∃ n, TemplateItem.manual n ∈ items)
    (hcnt : autoCount items ≤ args.length) :
    format_to (renderTemplate items) args =
      .error (if firstIsManual items then msg_manual_to_auto
        else msg_auto_to_manual) :=
  scan_unknown_mixed args items hwf hids hauto hman 0 (by omega)

/-- C1 witness: the amended theorem applied to the template
`\x7b0\x7d\x7b\x7d` with one argument. -/
theorem c1_mixing_witness :
    format_to (renderTemplate [TemplateItem.manual 0, TemplateItem.auto])
        [Arg.intArg 5] =
      .error (if firstIsManual [TemplateItem.manual 0, TemplateItem.auto]
        then msg_manual_to_auto else msg_auto_to_manual) :=
  c1_mixing_amended [TemplateItem.manual 0, TemplateItem.auto] [Arg.intArg 5]
    (by intro it hit; simp at hit; rcases hit with rfl | rfl <;> trivial)
    (by
      intro n hn
      have hn0 : n = 0 := by simpa using hn
      subst hn0
      exact ⟨by decide, by decide⟩)
    (by simp)
    ⟨0, by simp⟩
    (by decide)

/-! ### Claim C5 (bounds for automatic-only templates) -/

/-- C5: for every template of brace-free literals and automatic
placeholders only, rendering succeeds when the placeholder count is at most
the argument count, fails with the out-of-bounds error (at index
`args.length`) when the count exceeds it, and with zero arguments and at
least one placeholder the failure uses the distinct
"no arguments provided" wording. -/
theorem c5_bounds_theorem (items : List TemplateItem) (args : List Arg)
    (hwf : ∀ it ∈ items, it.noBrace)
    (hnoman : ∀ n, TemplateItem.manual n ∉ items) :
    (autoCount items ≤ args.length →
      ∃ s, format_to (renderTemplate items) args = .ok s) ∧
    (args.length < autoCount items →
      format_to (renderTemplate items) args =
        .error (msg_out_of_bounds args.length args.length)) ∧
    (args = [] → 0 < autoCount items →
      format_to (renderTemplate items) args =
        .error "Argument index 0 out of bounds (no arguments provided).") := by
  have h := scan_auto_only args items hwf hnoman 0 IndexingMode.Unknown
    (by simp) (Nat.zero_le _)
  refine ⟨fun hle => h.1 (by omega), fun hlt => h.2 (by omega), fun h0 hpos => ?_⟩
  subst h0
  have h2 := h.2 (by simpa using hpos)
  exact h2

/-- C5 witness: the theorem applied to a one-placeholder template with one,
zero-of-two, and zero arguments. -/
theorem c5_bounds_witness :
    (∃ s, format_to (renderTemplate [TemplateItem.auto]) [Arg.intArg 5] = .ok s) ∧
    format_to (renderTemplate [TemplateItem.auto, TemplateItem.auto])
        [Arg.intArg 5] = .error (msg_out_of_bounds 1 1) ∧
    format_to (renderTemplate [TemplateItem.auto]) [] =
      .error "Argument index 0 out of bounds (no arguments provided)." := by
  refine ⟨?_, ?_, ?_⟩
  · exact (c5_bounds_theorem [TemplateItem.auto] [Arg.intArg 5]
      (by intro it hit; simp at hit; subst hit; trivial)
      (by intro n hn; simp at hn)).1 (by decide)
  · exact (c5_bounds_theorem [TemplateItem.auto, TemplateItem.auto] [Arg.intArg 5]
      (by intro it hit; simp at hit; subst hit; trivial)
      (by intro n hn; simp at hn)).2.1 (by decide)
  · exact (c5_bounds_theorem [TemplateItem.auto] []
      (by intro it hit; simp at hit; subst hit; trivial)
      (by intro n hn; simp at hn)).2.2 rfl (by decide)

/-! ### Claim C2 (default alignment) -/

theorem isDigit_not_align {c : Char} (h : c.isDigit = true) :
    isAlignChar c = false := by
  by_contra hne
  have htrue : isAlignChar c = true := by simpa using hne
  simp only [isAlignChar, Bool.or_eq_true, decide_eq_true_eq] at htrue
  rcases htrue with (rfl | rfl) | rfl <;> exact absurd h (by decide)

/-- C2 counterexample: a string argument with only a width is padded on its
left (right-aligned), not on its right side as the claim states, because
`apply_padding_internal` treats the absent type character as numeric. -/
theorem c2_default_align_counterexample :
    format_to ("\x7b:10\x7d".toList) [Arg.strArg "test".toList] =
      .ok ("      test".toList) ∧
    "      test".toList ≠ "test      ".toList :=
  ⟨rfl, by decide⟩

/-- C2 (amended): when no alignment is given, the default is chosen from
the spec type character alone — right when `could_be_numeric` holds of it
(which includes the absent type character, hence also string and bool
arguments formatted with only a width), left otherwise (e.g. an explicit
`s`).  The first two parts give the exact padded shapes produced by
`apply_padding_internal` (for a non-`0` fill in the numeric case); the
concrete parts show a string with only a width padded on its left, the same
string with `s` padded on its right, and a bool padded on its left. -/
theorem c2_default_align_amended :
    (∀ (value_str prefix_str : List Char) (spec : ParsedFormatSpec) (w : Nat)
      (sg body : List Char),
      spec.align = '\x00' → could_be_numeric spec.type = true →
      spec.fill ≠ '0' → spec.width = some w →
      split_sign value_str true = (sg, body) →
      sg.length + prefix_str.length + body.length < w →
      apply_padding_internal value_str prefix_str spec =
        List.replicate (w - (sg.length + prefix_str.length + body.length))
          spec.fill ++ sg ++ prefix_str ++ body) ∧
    (∀ (value_str prefix_str : List Char) (spec : ParsedFormatSpec) (w : Nat),
      spec.align = '\x00' → could_be_numeric spec.type = false →
      spec.width = some w →
      prefix_str.length + value_str.length < w →
      apply_padding_internal value_str prefix_str spec =
        prefix_str ++ value_str ++
          List.replicate (w - (prefix_str.length + value_str.length)) spec.fill) ∧
    format_to ("\x7b:10\x7d".toList) [Arg.strArg "test".toList] =
      .ok ("      test".toList) ∧
    format_to ("\x7b:10s\x7d".toList) [Arg.strArg "test".toList] =
      .ok ("test      ".toList) ∧
    format_to ("\x7b:10\x7d".toList) [Arg.boolArg true] =
      .ok ("      true".toList) := by
  refine ⟨?_, ?_, rfl, rfl, rfl⟩
  · intro value_str prefix_str spec w sg body hal hnum hfill hw hsv hlen
    have hlen' : sg.length + (prefix_str ++ body).length < w := by
      simp only [List.length_append]
      omega
    simp only [apply_padding_internal, hal, hnum, hsv, hw, hlen', if_true,
      if_pos hlen']
    simp +decide [hfill, standard_alignment, List.length_append,
      List.append_assoc, Nat.add_assoc]
  · intro value_str prefix_str spec w hal hnum hw hlen
    have hsv : split_sign value_str false = ([], value_str) := by
      cases value_str <;> simp [split_sign]
    have hlen' : ([] : List Char).length + (prefix_str ++ value_str).length < w := by
      simp only [List.length_append, List.length_nil]
      omega
    simp only [apply_padding_internal, hal, hnum, hsv, hw, if_pos hlen']
    simp +decide [standard_alignment, List.length_append, List.append_assoc]

/-- C2 witness: the two general parts applied to a signed decimal body and
a text body. -/
theorem c2_default_align_witness :
    apply_padding_internal ['-', '7'] [] { type := 'd', width := some 5 } =
      "   -7".toList ∧
    apply_padding_internal ['a', 'b'] [] { type := 's', width := some 4 } =
      "ab  ".toList := by
  constructor
  · exact (c2_default_align_amended.1 ['-', '7'] []
      { type := 'd', width := some 5 } 5 ['-'] ['7'] rfl (by decide) (by decide)
      rfl (by decide) (by decide)).trans (by decide)
  · exact (c2_default_align_amended.2.1 ['a', 'b'] []
      { type := 's', width := some 4 } 4 rfl (by decide) rfl
      (by decide)).trans (by decide)

/-! ### Claim C3 (zero-fill shorthand) -/

/-- C3 counterexample: the spec `\x7b: >05\x7d` explicitly writes a space
fill with a `>` alignment, yet the parser turns the fill into `0` (the
zero-fill step only tests whether the current fill equals the space
character, which cannot distinguish an explicit space fill from no fill). -/
theorem c3_zero_fill_counterexample :
    parse_placeholder_content (": >05".toList) =
      .ok { arg_id_str := [], fill := '0', align := '>', hash_flag := false,
            width := some 5, precision := none, type := '\x00' } ∧
    ('0' : Char) ≠ ' ' :=
  ⟨rfl, by decide⟩

/-- C3 (amended): in a placeholder spec body, a literal `0` at the cursor
after the fill/align and `#` steps sets the fill character to `0` exactly
when the fill at that point is the space character — whether because no
fill was written or because the explicit fill was itself a space — and the
`0` also serves as the first width digit (it is not consumed separately).
Part one: no fill/align written.  Part two: an explicit non-space fill is
kept.  Part three: an explicit space fill with alignment is overridden to
`0` (this is where the original claim fails). -/
theorem c3_zero_fill_amended :
    (∀ ds : List Char, (∀ c ∈ ds, c.isDigit = true) →
      digitsVal ('0' :: ds) ≤ 2147483647 →
      parse_placeholder_content (':' :: '0' :: ds) =
        .ok { fill := '0', width := some (digitsVal ('0' :: ds)) }) ∧
    (∀ (f : Char) (ds : List Char), f ≠ ' ' → (∀ c ∈ ds, c.isDigit = true) →
      digitsVal ('0' :: ds) ≤ 2147483647 →
      parse_placeholder_content (':' :: f :: '<' :: '0' :: ds) =
        .ok { fill := f, align := '<',
              width := some (digitsVal ('0' :: ds)) }) ∧
    (∀ ds : List Char, (∀ c ∈ ds, c.isDigit = true) →
      digitsVal ('0' :: ds) ≤ 2147483647 →
      parse_placeholder_content (':' :: ' ' :: '>' :: '0' :: ds) =
        .ok { fill := '0', align := '>',
              width := some (digitsVal ('0' :: ds)) }) := by
  have hwidth : ∀ (spec : ParsedFormatSpec) (ds : List Char),
      (∀ c ∈ ds, c.isDigit = true) → digitsVal ('0' :: ds) ≤ 2147483647 →
      parseWidthStep spec ('0' :: ds) =
        .ok { spec with width := some (digitsVal ('0' :: ds)) } := by
    intro spec ds hdig hrange
    have htake : ds.takeWhile Char.isDigit = ds :=
      List.takeWhile_eq_self_iff.mpr hdig
    have hdrop : ds.dropWhile Char.isDigit = [] :=
      List.dropWhile_eq_nil_iff.mpr hdig
    simp +decide [parseWidthStep, parsePrecisionStep, parseTypeStep, htake,
      hdrop, Nat.not_lt.mpr hrange]
  refine ⟨fun ds hdig hrange => ?_, fun f ds hf hdig hrange => ?_,
    fun ds hdig hrange => ?_⟩
  · have hfa : fillAlignStep ('0' :: ds) = (' ', '\x00', '0' :: ds) := by
      cases ds with
      | nil => simp +decide [fillAlignStep]
      | cons d tl =>
        have hd : isAlignChar d = false :=
          isDigit_not_align (hdig d (List.mem_cons_self _ _))
        simp +decide [fillAlignStep, hd]
    simp +decide [parse_placeholder_content, parseSpecBody, hfa,
      hwidth _ ds hdig hrange]
  · have hfa : fillAlignStep (f :: '<' :: '0' :: ds) = (f, '<', '0' :: ds) := by
      simp +decide [fillAlignStep]
    simp +decide [parse_placeholder_content, parseSpecBody, hfa, hf,
      hwidth _ ds hdig hrange]
  · have hfa : fillAlignStep (' ' :: '>' :: '0' :: ds) = (' ', '>', '0' :: ds) := by
      simp +decide [fillAlignStep]
    simp +decide [parse_placeholder_content, parseSpecBody, hfa,
      hwidth _ ds hdig hrange]

/-- C3 witness: the three parts of the amended theorem at the concrete
specs `:05`, `:*<05` and `: >05`. -/
theorem c3_zero_fill_witness :
    parse_placeholder_content (":05".toList) =
      .ok { fill := '0', width := some (digitsVal ('0' :: ['5'])) } ∧
    parse_placeholder_content (":*<05".toList) =
      .ok { fill := '*', align := '<', width := some (digitsVal ('0' :: ['5'])) } ∧
    parse_placeholder_content (": >05".toList) =
      .ok { fill := '0', align := '>', width := some (digitsVal ('0' :: ['5'])) } :=
  ⟨c3_zero_fill_amended.1 ['5'] (by decide) (by decide),
   c3_zero_fill_amended.2.1 '*' ['5'] (by decide) (by decide) (by decide),
   c3_zero_fill_amended.2.2 ['5'] (by decide) (by decide)⟩

/-! ### Claim C4 (invalid type selector on an integer) -/

/-- C4 counterexample: the claim demands a fatal invalid-type-specifier
error for every integer, including zero — but the zero short-circuit of
`format_basic_type` runs before the selector is validated, so
`\x7b:f\x7d` applied to the integer 0 renders `"0"` successfully. -/
theorem c4_invalid_type_counterexample :
    format_to ("\x7b:f\x7d".toList) [Arg.intArg 0] = .ok ("0".toList) ∧
    format_to ("\x7b:f\x7d".toList) [Arg.intArg 10] =
      .error "Invalid type specifier \x27f\x27 for integral argument" :=
  ⟨rfl, rfl⟩

/-- C4 (amended): a type selector outside `d`, `b`, `B`, `o`, `x`, `X` (and
the absent selector) on an integer argument is a fatal
invalid-type-specifier error for every nonzero value; for the value zero
the selector is not validated at all and the argument renders as the padded
digit `0` with no prefix. -/
theorem c4_invalid_type_amended (n : Int) (spec : ParsedFormatSpec)
    (htype : spec.type ∉ (['d', 'b', 'B', 'o', 'x', 'X', '\x00'] : List Char)) :
    (n ≠ 0 → format_basic_type (.intVal n) spec =
      .error ("Invalid type specifier \x27" ++ [spec.type].asString ++
        "\x27 for integral argument")) ∧
    format_basic_type (.intVal 0) spec =
      .ok (apply_padding_internal ['0'] [] spec) := by
  simp only [List.mem_cons, List.not_mem_nil, or_false, not_or] at htype
  obtain ⟨hd, hb, hB, ho, hx, hX, h0⟩ := htype
  constructor
  · intro hn
    simp [format_basic_type, hn, hd, hb, hB, ho, hx, hX, h0]
  · simp [format_basic_type, hb, hB, hx, hX]

/-- C4 witness: the amended theorem at the selector `f` with values 1 and 0. -/
theorem c4_invalid_type_witness :
    format_basic_type (.intVal 1) { type := 'f' } =
      .error "Invalid type specifier \x27f\x27 for integral argument" ∧
    format_basic_type (.intVal 0) { type := 'f' } = .ok ("0".toList) := by
  have h := c4_invalid_type_amended 1 { type := 'f' } (by decide)
  exact ⟨(h.1 (by decide)).trans (by rfl), h.2.trans (by rfl)⟩

/-! ### Claim C6 (zero-fill keeps sign and prefix in front) -/

/-- C6: with fill `0`, a numeric spec type and right (or defaulted)
alignment, the padded output is sign, then base prefix, then the zero
padding, then the magnitude body; in particular
`render("\x7b:#010b\x7d", 10) = "0b00001010"` and
`render("\x7b:08b\x7d", -10) = "-0001010"`. -/
theorem c6_zero_fill_order_theorem :
    (∀ (value_str prefix_str : List Char) (spec : ParsedFormatSpec) (w : Nat)
      (sg body : List Char),
      could_be_numeric spec.type = true → spec.fill = '0' →
      (spec.align = '\x00' ∨ spec.align = '>') → spec.width = some w →
      split_sign value_str true = (sg, body) →
      sg.length + prefix_str.length + body.length < w →
      apply_padding_internal value_str prefix_str spec =
        sg ++ prefix_str ++
          List.replicate (w - (sg.length + prefix_str.length + body.length))
            '0' ++ body) ∧
    format_to ("\x7b:#010b\x7d".toList) [Arg.intArg 10] =
      .ok ("0b00001010".toList) ∧
    format_to ("\x7b:08b\x7d".toList) [Arg.intArg (-10)] =
      .ok ("-0001010".toList) := by
  refine ⟨?_, rfl, rfl⟩
  intro value_str prefix_str spec w sg body hnum hfill hal hw hsv hlen
  have hlen' : sg.length + (prefix_str ++ body).length < w := by
    simp only [List.length_append]
    omega
  rcases hal with hal | hal <;>
  · simp only [apply_padding_internal, hnum, hfill, hsv, hw, hal, if_pos hlen']
    simp +decide [List.length_append, List.append_assoc, Nat.add_assoc]

/-- C6 witness: the general part applied to the binary body of -10 under
`\x7b:08b\x7d`. -/
theorem c6_zero_fill_order_witness :
    apply_padding_internal ['-', '1', '0', '1', '0'] []
        { fill := '0', width := some 8, type := 'b' } =
      "-0001010".toList := by
  have h := c6_zero_fill_order_theorem.1 ['-', '1', '0', '1', '0'] []
    { fill := '0', width := some 8, type := 'b' } 8 ['-'] ['1', '0', '1', '0']
    (by decide) rfl (Or.inl rfl) rfl (by decide) (by decide)
  exact h.trans (by decide)

/-! ### Claim C7 (integer zero: digit body and alternate-form prefixes) -/

/-- C7: an integer zero renders as the single digit `0` in every base (no
hash, no width), and with the alternate form the binary and hexadecimal
selectors still attach a base prefix while octal attaches none:
`render("\x7b:#x\x7d", 0) = "0x0"` but `render("\x7b:#o\x7d", 0) = "0"`
(the `B` selector attaches the lowercase `0b` prefix at zero). -/
theorem c7_zero_value_theorem :
    (∀ spec : ParsedFormatSpec,
      spec.type ∈ (['d', 'b', 'B', 'o', 'x', 'X', '\x00'] : List Char) →
      spec.hash_flag = false → spec.width = none →
      format_basic_type (.intVal 0) spec = .ok ['0']) ∧
    format_to ("\x7b:#x\x7d".toList) [Arg.intArg 0] = .ok ("0x0".toList) ∧
    format_to ("\x7b:#X\x7d".toList) [Arg.intArg 0] = .ok ("0X0".toList) ∧
    format_to ("\x7b:#b\x7d".toList) [Arg.intArg 0] = .ok ("0b0".toList) ∧
    format_to ("\x7b:#B\x7d".toList) [Arg.intArg 0] = .ok ("0b0".toList) ∧
    format_to ("\x7b:#o\x7d".toList) [Arg.intArg 0] = .ok ("0".toList) ∧
    format_to ("\x7b:#d\x7d".toList) [Arg.intArg 0] = .ok ("0".toList) ∧
    format_to ("\x7b:#\x7d".toList) [Arg.intArg 0] = .ok ("0".toList) := by
  refine ⟨?_, rfl, rfl, rfl, rfl, rfl, rfl, rfl⟩
  intro spec _ hhash hw
  simp +decide [format_basic_type, hhash, apply_padding_internal, split_sign, hw]

/-- C7 witness: the general part at the hexadecimal selector. -/
theorem c7_zero_value_witness :
    format_basic_type (.intVal 0) { type := 'x' } = .ok ['0'] :=
  c7_zero_value_theorem.1 { type := 'x' } (by decide) rfl rfl

/-! ### Claim C8 (alternate form on fixed-point floats) -/

theorem split_sign_append (value : List Char) (numeric : Bool) :
    (split_sign value numeric).1 ++ (split_sign value numeric).2 = value := by
  cases value with
  | nil => rfl
  | cons c rest =>
    simp only [split_sign]
    split <;> simp

theorem mem_apply_padding {c : Char} (value_str prefix_str : List Char)
    (spec : ParsedFormatSpec) (hc : c ∈ value_str) :
    c ∈ apply_padding_internal value_str prefix_str spec := by
  have hc2 : c ∈ (split_sign value_str (could_be_numeric spec.type)).1 ∨
      c ∈ (split_sign value_str (could_be_numeric spec.type)).2 := by
    rw [← List.mem_append, split_sign_append]
    exact hc
  simp only [apply_padding_internal, standard_alignment]
  cases hw : spec.width with
  | none =>
    dsimp only
    simp only [List.mem_append]
    tauto
  | some w =>
    dsimp only
    split_ifs <;> (simp only [List.mem_append]; tauto)

theorem mem_fracBlock (p m : Nat) :
    ∀ c ∈ fracBlock p m, c.isDigit = true := by
  intro c hc
  unfold fracBlock at hc
  rcases List.mem_append.mp hc with h | h
  · rcases List.mem_replicate.mp h with ⟨_, rfl⟩
    decide
  · exact mem_natDec_isDigit m c h

theorem mem_fixedRender (num : Int) (den p : Nat) :
    ∀ c ∈ fixedRender num den p, c.isDigit = true ∨ c = '-' ∨ c = '.' := by
  intro c hc
  unfold fixedRender at hc
  rcases List.mem_append.mp hc with h | h
  · split at h
    · rcases List.mem_singleton.mp h with rfl
      right; left; rfl
    · exact absurd h (List.not_mem_nil c)
  · split at h
    · exact Or.inl (mem_natDec_isDigit _ c h)
    · rcases List.mem_append.mp h with h1 | h1
      · exact Or.inl (mem_natDec_isDigit _ c h1)
      · rcases List.mem_cons.mp h1 with rfl | h2
        · right; right; rfl
        · exact Or.inl (mem_fracBlock _ _ c h2)

theorem fixedRender_no_exp (num : Int) (den p : Nat) :
    'e' ∉ fixedRender num den p ∧ 'E' ∉ fixedRender num den p := by
  constructor <;> intro h
  · rcases mem_fixedRender num den p _ h with hd | h1 | h1
    · exact absurd hd (by decide)
    · exact absurd h1 (by decide)
    · exact absurd h1 (by decide)
  · rcases mem_fixedRender num den p _ h with hd | h1 | h1
    · exact absurd hd (by decide)
    · exact absurd h1 (by decide)
    · exact absurd h1 (by decide)

theorem dot_mem_fixedRender (num : Int) (den p : Nat) (hp : p ≠ 0) :
    '.' ∈ fixedRender num den p := by
  unfold fixedRender
  refine List.mem_append.mpr (Or.inr ?_)
  simp [hp]

theorem dot_not_mem_fixedRender_zero (num : Int) (den : Nat) :
    '.' ∉ fixedRender num den 0 := by
  intro h
  unfold fixedRender at h
  rcases List.mem_append.mp h with h1 | h1
  · split at h1
    · exact absurd (List.mem_singleton.mp h1) (by decide)
    · exact absurd h1 (List.not_mem_nil _)
  · simp only [if_pos rfl] at h1
    exact absurd (mem_natDec_isDigit _ _ h1) (by decide)

theorem no_dot_exp_iff (l : List Char) :
    no_dot_exp l = true ↔ '.' ∉ l ∧ 'e' ∉ l ∧ 'E' ∉ l := by
  simp [no_dot_exp, List.elem_iff, and_assoc]

theorem mem_ite_append {c : Char} {l l2 : List Char} (p : Prop) [Decidable p]
    (h : c ∈ l) : c ∈ (if p then l ++ l2 else l) := by
  split
  · exact List.mem_append.mpr (Or.inl h)
  · exact h

/-- C8: with the fixed-point selector and the alternate-form flag, every
finite float rendering contains a decimal point (even at precision 0); the
flag never changes an infinity or NaN rendering; and
`render("\x7b:#.0f\x7d", 3.0) = "3."` while
`render("\x7b:.0f\x7d", 3.0) = "3"`. -/
theorem c8_alt_form_float_theorem :
    (∀ (nm : Int) (dn : Nat) (spec : ParsedFormatSpec), 0 < dn →
      (spec.type = 'f' ∨ spec.type = 'F') → spec.hash_flag = true →
      ∃ s, format_basic_type (.floatVal (.finite nm dn)) spec = .ok s ∧
        '.' ∈ s) ∧
    (∀ (v : FloatVal) (spec : ParsedFormatSpec),
      (spec.type = 'f' ∨ spec.type = 'F') →
      (v = .nan ∨ v = .inf false ∨ v = .inf true) →
      format_basic_type (.floatVal v) spec =
        format_basic_type (.floatVal v) { spec with hash_flag := false }) ∧
    format_to ("\x7b:#.0f\x7d".toList) [Arg.floatArg (.finite 3 1)] =
      .ok ("3.".toList) ∧
    format_to ("\x7b:.0f\x7d".toList) [Arg.floatArg (.finite 3 1)] =
      .ok ("3".toList) ∧
    format_to ("\x7b:#f\x7d".toList) [Arg.floatArg (.inf false)] =
      .ok ("inf".toList) := by
  refine ⟨?_, ?_, rfl, rfl, rfl⟩
  · intro nm dn spec _ htype hhash
    have htype3 : spec.type = 'f' ∨ spec.type = 'F' ∨ spec.type = '\x00' := by
      tauto
    simp only [format_basic_type, if_pos htype3, if_pos htype]
    refine ⟨_, rfl, mem_apply_padding _ _ _ ?_⟩
    by_cases hdot : '.' ∈ fixedRender nm dn (spec.precision.getD 6)
    · exact mem_ite_append _ (mem_ite_append _ hdot)
    · rcases hp : spec.precision with _ | p
      · rw [hp] at hdot
        exact absurd (dot_mem_fixedRender nm dn _ (by decide)) hdot
      · by_cases hp0 : p = 0
        · subst hp0
          have hnd : no_dot_exp (fixedRender nm dn 0) = true := by
            rw [no_dot_exp_iff]
            exact ⟨dot_not_mem_fixedRender_zero nm dn,
              (fixedRender_no_exp nm dn 0).1, (fixedRender_no_exp nm dn 0).2⟩
          simp [hp, hnd, hhash]
        · rw [hp] at hdot
          exact absurd (dot_mem_fixedRender nm dn _ (by simpa using hp0)) hdot
  · intro v spec htype hv
    obtain ⟨id, fl, al, hs, wd, pr, ty⟩ := spec
    simp only at htype
    rcases htype with rfl | rfl <;> rcases hv with rfl | rfl | rfl <;> rfl

/-- C8 witness: the two general parts at `\x7b:#.0f\x7d` on 3.0 and at
`\x7b:#f\x7d` on NaN. -/
theorem c8_alt_form_float_witness :
    (∃ s, format_basic_type (.floatVal (.finite 3 1))
        { hash_flag := true, precision := some 0, type := 'f' } = .ok s ∧
      '.' ∈ s) ∧
    format_basic_type (.floatVal .nan) { hash_flag := true, type := 'f' } =
      format_basic_type (.floatVal .nan)
        { hash_flag := false, type := 'f' } := by
  constructor
  · exact c8_alt_form_float_theorem.1 3 1
      { hash_flag := true, precision := some 0, type := 'f' }
      (by decide) (Or.inl rfl) rfl
  · exact c8_alt_form_float_theorem.2.1 .nan
      { hash_flag := true, type := 'f' } (Or.inl rfl) (Or.inl rfl)

/-! ### Claim C9 (escape handling is independent of placeholder resolution) -/

/-- C9: for every argument `x`, the template `\x7b\x7b\x7d\x7d and
\x7b\x7b\x7b\x7d\x7d\x7d` renders to `"\x7b\x7d and \x7b"`, then the
rendering of `\x7b\x7d` applied to `x`, then `"\x7d"` — doubled braces
escape to single literal braces independently of placeholder resolution. -/
theorem c9_escape_roundtrip_theorem (x : Arg) :
    ∃ s, format_to ("\x7b\x7d".toList) [x] = .ok s ∧
      format_to ("\x7b\x7b\x7d\x7d and \x7b\x7b\x7b\x7d\x7d\x7d".toList) [x] =
        .ok ("\x7b\x7d and \x7b".toList ++ s ++ ['\x7d']) := by
  obtain ⟨piece, hpiece⟩ := formatArg_plain_ok x []
  have hd : dispatch_arg [x] 0 {} = .ok piece := by
    simpa [dispatch_arg] using hpiece
  have hh : handle_placeholder [x] [] ⟨IndexingMode.Unknown, 0⟩ =
      .ok (piece, ⟨IndexingMode.Automatic, 1⟩) := by
    rw [handle_auto_eval [x] IndexingMode.Unknown 0 (by simp), hd]
  refine ⟨piece, ?_, ?_⟩
  · show scanAux [x] ['\x7b', '\x7d'] ⟨IndexingMode.Unknown, 0⟩
      ScanMode.litMode = .ok piece
    rw [scan_auto_item [x] [] ⟨IndexingMode.Unknown, 0⟩, hh]
    simp [scanAux]
  · show scanAux [x]
      ['\x7b', '\x7b', '\x7d', '\x7d', ' ', 'a', 'n', 'd', ' ',
       '\x7b', '\x7b', '\x7b', '\x7d', '\x7d', '\x7d']
      ⟨IndexingMode.Unknown, 0⟩ ScanMode.litMode = _
    simp +decide only [scanAux, hh]
    rfl

/-! ### Claim C10 (precision is ignored for string arguments) -/

/-- C10: the string formatter passes the value through
`apply_padding_internal`, which never reads the precision field: the output
with any precision equals the output with the precision removed; a string
spec without width reproduces the string unchanged (so precision never
truncates); concretely `render("\x7b:.2\x7d", "hello") = "hello"`. -/
theorem c10_string_precision_theorem :
    (∀ (s : List Char) (spec : ParsedFormatSpec),
      formatArg (.strArg s) spec =
        formatArg (.strArg s) { spec with precision := none }) ∧
    (∀ (s : List Char) (spec : ParsedFormatSpec), spec.width = none →
      formatArg (.strArg s) spec = .ok s) ∧
    format_to ("\x7b:.2\x7d".toList) [Arg.strArg "hello".toList] =
      .ok ("hello".toList) := by
  refine ⟨?_, ?_, rfl⟩
  · intro s spec
    obtain ⟨id, fl, al, hs, wd, pr, ty⟩ := spec
    rfl
  · intro s spec hw
    simp only [formatArg, apply_padding_internal, hw]
    rw [List.nil_append, split_sign_append]

/-- C10 witness: the two general parts at a concrete string and spec. -/
theorem c10_string_precision_witness :
    formatArg (.strArg "hello".toList)
        { width := some 8, precision := some 2 } =
      formatArg (.strArg "hello".toList)
        { width := some 8, precision := none } ∧
    formatArg (.strArg "hello".toList) { precision := some 2 } =
      .ok ("hello".toList) :=
  ⟨c10_string_precision_theorem.1 "hello".toList
      { width := some 8, precision := some 2 },
   c10_string_precision_theorem.2.1 "hello".toList
      { precision := some 2 } rfl⟩



-- Regression checks mirroring the expectations of the repository test suite
-- (src/tests/gtest_main.cpp) and the literal scenarios of the spec.
example : format_to ("Number: \x7b\x7d".toList) [Arg.intArg 42] = .ok ("Number: 42".toList) := rfl
example : format_to ("\x7b1\x7d, \x7b0\x7d".toList) [Arg.strArg "zero".toList, Arg.strArg "one".toList] = .ok ("one, zero".toList) := rfl
example : format_to ("\x7b:*^10\x7d".toList) [Arg.strArg "test".toList] = .ok ("***test***".toList) := rfl
example : format_to ("\x7b:<10\x7d".toList) [Arg.intArg 123] = .ok ("123       ".toList) := rfl
example : format_to ("\x7b:0>10\x7d".toList) [Arg.intArg 123] = .ok ("0000000123".toList) := rfl
example : format_to ("\x7b:#010b\x7d".toList) [Arg.intArg 10] = .ok ("0b00001010".toList) := rfl
example : format_to ("\x7b:08b\x7d".toList) [Arg.intArg (-10)] = .ok ("-0001010".toList) := rfl
example : format_to ("\x7b:#o\x7d".toList) [Arg.intArg 10] = .ok ("012".toList) := rfl
example : format_to ("\x7b:#o\x7d".toList) [Arg.intArg 0] = .ok ("0".toList) := rfl
example : format_to ("\x7b:#x\x7d".toList) [Arg.intArg 0] = .ok ("0x0".toList) := rfl
example : format_to ("\x7b:#X\x7d".toList) [Arg.intArg (-26)] = .ok ("-0X1A".toList) := rfl
example : format_to ("\x7b:.2f\x7d".toList) [Arg.floatArg (.finite 314159 100000)] = .ok ("3.14".toList) := rfl
example : format_to ("\x7b:f\x7d".toList) [Arg.floatArg (.finite 314159 100000)] = .ok ("3.141590".toList) := rfl
example : format_to ("\x7b:.0f\x7d".toList) [Arg.floatArg (.finite 3 1)] = .ok ("3".toList) := rfl
example : format_to ("\x7b:#.0f\x7d".toList) [Arg.floatArg (.finite 3 1)] = .ok ("3.".toList) := rfl
example : format_to ("\x7b\x7d".toList) [Arg.floatArg (.finite 3 1)] = .ok ("3".toList) := rfl
example : format_to ("\x7b:10.2f\x7d".toList) [Arg.floatArg (.finite 314159 100000)] = .ok ("      3.14".toList) := rfl
example : format_to ("\x7b:010.2f\x7d".toList) [Arg.floatArg (.finite 314159 100000)] = .ok ("0000003.14".toList) := rfl
example : format_to ("\x7b\x7b\x7b\x7d\x7d\x7d".toList) [Arg.intArg 42] = .ok ("\x7b42\x7d".toList) := rfl
example : format_to ("\x7b:\x7d".toList) [Arg.intArg 123] = .ok ("123".toList) := rfl
example : format_to ("\x7b:10\x7d".toList) [Arg.strArg "test".toList] = .ok ("      test".toList) := rfl
example : format_to ("\x7b: >05\x7d".toList) [Arg.intArg 42] = .ok ("00042".toList) := rfl
example : format_to ("\x7b:f\x7d".toList) [Arg.intArg 0] = .ok ("0".toList) := rfl
example : format_to ("\x7b1\x7d\x7b\x7d".toList) [Arg.strArg "x".toList] = .error "Argument index 1 out of bounds for 1 arguments." := rfl
example : format_to ("Hello \x7b\x7d".toList) [] = .error "Argument index 0 out of bounds (no arguments provided)." := rfl
example : format_to ("Hello \x7b".toList) [Arg.intArg 1] = .error "Unmatched \x27\x7b\x27 in format string" := rfl
example : format_to ("Hello \x7d".toList) [Arg.intArg 1] = .error "Unmatched \x27\x7d\x27 in format string" := rfl
example : format_to ("\x7b\x7d then \x7b0\x7d".toList) [Arg.intArg 1, Arg.intArg 2] = .error msg_auto_to_manual := rfl
example : format_to ("\x7b1\x7d then \x7b\x7d".toList) [Arg.intArg 1, Arg.intArg 2] = .error msg_manual_to_auto := rfl
example : format_to ("Hello \x7babc\x7d".toList) [Arg.intArg 1] = .error "Invalid format placeholder: non-numeric argument index \x27abc\x27" := rfl
example : format_to ("\x7b:b\x7d".toList) [Arg.boolArg true] = .ok ("true".toList) := rfl
example : format_to ("\x7b:10\x7d".toList) [Arg.boolArg true] = .ok ("      true".toList) := rfl
example : format_to ("\x7b:.\x7d".toList) [Arg.floatArg (.finite 3 1)] = .error "Error parsing placeholder content \x27:.\x27: Format specifier missing precision digits after \x27.\x27" := rfl
example : format_to ("\x7b:f\x7d".toList) [Arg.intArg 10] = .error "Invalid type specifier \x27f\x27 for integral argument" := rfl
example : format_to ("\x7b:#f\x7d".toList) [Arg.floatArg (.inf false)] = .ok ("inf".toList) := rfl
example : format_to ("\x7b:#f\x7d".toList) [Arg.floatArg .nan] = .ok ("nan".toList) := rfl
example : format_to ("\x7b:x<10\x7d".toList) [Arg.strArg "test".toList] = .ok ("testxxxxxx".toList) := rfl
example : format_to ("\x7b:*>#10b\x7d".toList) [Arg.intArg 10] = .ok ("****0b1010".toList) := rfl
example : format_to ("\x7b:08x\x7d".toList) [Arg.intArg (-26)] = .ok ("-000001a".toList) := rfl
example : format_to ("\x7b:#08x\x7d".toList) [Arg.intArg 26] = .ok ("0x00001a".toList) := rfl
example : format_to ("\x7b:#08o\x7d".toList) [Arg.intArg 10] = .ok ("00000012".toList) := rfl
example : format_to ("\x7b:#010B\x7d".toList) [Arg.intArg 10] = .ok ("0B00001010".toList) := rfl
example : format_to ("\x7b:#8o\x7d".toList) [Arg.intArg 0] = .ok ("       0".toList) := rfl
example : format_to ("\x7b:#08o\x7d".toList) [Arg.intArg 0] = .ok ("00000000".toList) := rfl
example : format_to ("\x7b0\x7d \x7b1\x7d \x7b0\x7d".toList) [Arg.strArg "A".toList, Arg.strArg "B".toList] = .ok ("A B A".toList) := rfl
example : format_to ("\x7b1:>10.2f\x7d, \x7b0:*<8\x7d".toList) [Arg.strArg "str".toList, Arg.floatArg (.finite 314159 100000)] = .ok ("      3.14, str*****".toList) := rfl
example : format_to ("\x7b:10#\x7d".toList) [Arg.floatArg (.finite 314 100)] = .error "Invalid type specifier \x27#\x27 for floating-point argument" := rfl
